import Mathlib

/-!
Shallow embedding of the learning-management-system core from
`final-project-oop.cpp`: the `Validator` predicates, the `Course` entity,
the `LMSManager` course registry, and the role-operation layer
(`Admin::addCourse`, `Admin::enrollStudent`, `Teacher::addGrade`,
`Teacher::addContent`), together with the seed state built in `main`.

C++ exceptions are modelled by returning the pre-call state together with
an optional error (`State × Option LMSError`): in the source every `throw`
happens before any mutation, so a failing call leaves the object as it was.
Machine `int` values (grades, indices) are modelled as `Int`; `std::string`
as Lean `String` (position-level reasoning uses the underlying `List Char`).
-/

/-- The two error kinds of the core: `ValidationException(msg)` and
`InvalidCourseIndexException`. -/
inductive LMSError where
  | validation : String → LMSError
  | invalidCourseIndex : LMSError
deriving DecidableEq, Repr

/-- Role of a registered user: which concrete `User` subclass the object is
(`Admin`, `Teacher`, `Student`). -/
inductive Role where
  | admin : Role
  | teacher : Role
  | student : Role
deriving DecidableEq, Repr

/-- A registered user (the `User` base data plus its concrete variant). -/
structure UserRec where
  username : String
  email : String
  password : String
  role : Role
deriving DecidableEq, Repr

/-- Index of the first occurrence of `c` in `s` (C++ `string::find`). -/
def findCharIdx (c : Char) : List Char → Option Nat
  | [] => none
  | x :: xs =>
    if x == c then some 0
    else (findCharIdx c xs).map (fun k => k + 1)

/-- Index of the last occurrence of `c` in `s` (C++ `string::rfind`). -/
def rfindCharIdx (c : Char) : List Char → Option Nat
  | [] => none
  | x :: xs =>
    match rfindCharIdx c xs with
    | some k => some (k + 1)
    | none => if x == c then some 0 else none

/-- Models `Validator::isValidEmail` on the underlying character list:
`atPos = find('@')`, `dotPos = rfind('.')`, and the result is
`atPos != npos && dotPos != npos && atPos < dotPos && atPos > 0 &&
dotPos < length - 1`. -/
def isValidEmailCore (email : List Char) : Bool :=
  match findCharIdx '@' email, rfindCharIdx '.' email with
  | some atPos, some dotPos =>
    decide (atPos < dotPos) && decide (0 < atPos) &&
      decide (dotPos < email.length - 1)
  | _, _ => false

/-- Models `Validator::isValidEmail`. -/
def isValidEmail (email : String) : Bool :=
  isValidEmailCore email.data

/-- Models `Validator::isValidGrade`: `grade >= 0 && grade <= 100`. -/
def isValidGrade (grade : Int) : Bool :=
  decide (0 ≤ grade) && decide (grade ≤ 100)

/-- Models `Validator::isValidIndex`: `index >= 0 && index < maxSize`. -/
def isValidIndex (index maxSize : Int) : Bool :=
  decide (0 ≤ index) && decide (index < maxSize)

/-- Models `Validator::isValidString`: `!str.empty() && str.length() <= 100`. -/
def isValidString (s : String) : Bool :=
  !s.isEmpty && decide (s.length ≤ 100)

/-- The `Course` entity: name, assigned teacher email, ordered content
strings, (studentEmail, grade) pairs, enrolled-student emails. -/
structure Course where
  courseName : String
  teacherEmail : String
  contents : List String
  grades : List (String × Int)
  enrolledStudents : List String
deriving DecidableEq, Repr

/-- The `Course` constructor: throws `ValidationException` on an invalid
name or teacher email; otherwise contents/grades/students start empty. -/
def Course.create (courseName teacherEmail : String) : Except LMSError Course :=
  if !isValidString courseName then
    Except.error (LMSError.validation "Invalid course name")
  else if !isValidEmail teacherEmail then
    Except.error (LMSError.validation "Invalid teacher email")
  else
    Except.ok ⟨courseName, teacherEmail, [], [], []⟩

/-- Models `Course::addContent`: validates the string, then appends. -/
def Course.addContent (c : Course) (content : String) : Course × Option LMSError :=
  if !isValidString content then
    (c, some (LMSError.validation "Invalid content"))
  else
    ({ c with contents := c.contents ++ [content] }, none)

/-- Models `Course::removeContent`: validates the index against the current
content count, then erases at that position. -/
def Course.removeContent (c : Course) (index : Int) : Course × Option LMSError :=
  if !isValidIndex index (c.contents.length : Int) then
    (c, some LMSError.invalidCourseIndex)
  else
    ({ c with contents := c.contents.eraseIdx index.toNat }, none)

/-- Models `Course::addGrade`: validates email then grade, then appends the pair
(no enrollment check, no deduplication). -/
def Course.addGrade (c : Course) (studentEmail : String) (grade : Int) :
    Course × Option LMSError :=
  if !isValidEmail studentEmail then
    (c, some (LMSError.validation "Invalid student email"))
  else if !isValidGrade grade then
    (c, some (LMSError.validation "Invalid grade"))
  else
    ({ c with grades := c.grades ++ [(studentEmail, grade)] }, none)

/-- Models `Course::enrollStudent`: validates the email, rejects an email already
in `enrolledStudents`, otherwise appends it. -/
def Course.enrollStudent (c : Course) (studentEmail : String) :
    Course × Option LMSError :=
  if !isValidEmail studentEmail then
    (c, some (LMSError.validation "Invalid student email"))
  else if c.enrolledStudents.contains studentEmail then
    (c, some (LMSError.validation "Student already enrolled"))
  else
    ({ c with enrolledStudents := c.enrolledStudents ++ [studentEmail] }, none)

/-- Models `Course::removeStudent`: erases the first matching email, or throws
`ValidationException("Student not found")` when none matches. -/
def Course.removeStudent (c : Course) (studentEmail : String) :
    Course × Option LMSError :=
  if c.enrolledStudents.contains studentEmail then
    ({ c with enrolledStudents := c.enrolledStudents.erase studentEmail }, none)
  else
    (c, some (LMSError.validation "Student not found"))

/-- The `LMSManager` singleton's state: the ordered course sequence. -/
structure LMSManager where
  courses : List Course
deriving DecidableEq, Repr

/-- Models `LMSManager::addCourse`: appends. -/
def LMSManager.addCourse (m : LMSManager) (course : Course) : LMSManager :=
  ⟨m.courses ++ [course]⟩

/-- Models `LMSManager::getCourse`: validates the index, then returns the course
at that position (in C++ a mutable reference into `courses`). -/
def LMSManager.getCourse (m : LMSManager) (index : Int) : Except LMSError Course :=
  if !isValidIndex index (m.courses.length : Int) then
    Except.error LMSError.invalidCourseIndex
  else
    match m.courses.get? index.toNat with
    | some c => Except.ok c
    | none => Except.error LMSError.invalidCourseIndex

/-- Mutating the course obtained through `getCourse(index)`: the C++
reference writes back into the registry, so a successful entity operation
replaces the course in place; a throwing one leaves the registry as it
was (every throw precedes the mutation). -/
def LMSManager.mutateCourse (m : LMSManager) (index : Int)
    (f : Course → Course × Option LMSError) : LMSManager × Option LMSError :=
  if !isValidIndex index (m.courses.length : Int) then
    (m, some LMSError.invalidCourseIndex)
  else
    match m.courses.get? index.toNat with
    | some c =>
      match f c with
      | (c', none) => (⟨m.courses.set index.toNat c'⟩, none)
      | (_, some e) => (m, some e)
    | none => (m, some LMSError.invalidCourseIndex)

/-- Models `LMSManager::removeCourse`: validates the index, then erases at that
position, shifting later indices down. -/
def LMSManager.removeCourse (m : LMSManager) (index : Int) :
    LMSManager × Option LMSError :=
  if !isValidIndex index (m.courses.length : Int) then
    (m, some LMSError.invalidCourseIndex)
  else
    (⟨m.courses.eraseIdx index.toNat⟩, none)

/-- Outcome of `Admin::addCourse`. `constructionFailed` is the uncaught
`ValidationException` thrown by the `Course` constructor. -/
inductive AddCourseOutcome where
  | canceled : AddCourseOutcome
  | alreadyAssigned : AddCourseOutcome
  | added : AddCourseOutcome
  | constructionFailed : LMSError → AddCourseOutcome
deriving DecidableEq, Repr

/-- Models `Admin::addCourse`. The admin supplies `courseName` and `teacherEmail`;
when no registered user carries that email the shell asks whether to
register a teacher (`registerIfMissing` is the y/n answer, with
`newTeacherName`/`newTeacherPassword` the details entered). The function
returns the user list, the registry and the outcome after the call:
existence check over all users by email (the role is never inspected),
optional teacher registration, refusal when some course already has this
teacher email, then construction and `LMSManager::addCourse`. -/
def Admin.addCourse (users : List UserRec) (m : LMSManager)
    (courseName teacherEmail : String) (registerIfMissing : Bool)
    (newTeacherName newTeacherPassword : String) :
    List UserRec × LMSManager × AddCourseOutcome :=
  let teacherExists := users.any (fun u => u.email == teacherEmail)
  if !teacherExists && !registerIfMissing then
    (users, m, AddCourseOutcome.canceled)
  else
    let users' :=
      if teacherExists then users
      else users ++ [⟨newTeacherName, teacherEmail, newTeacherPassword, Role.teacher⟩]
    if m.courses.any (fun c => c.teacherEmail == teacherEmail) then
      (users', m, AddCourseOutcome.alreadyAssigned)
    else
      match Course.create courseName teacherEmail with
      | Except.ok c => (users', m.addCourse c, AddCourseOutcome.added)
      | Except.error e => (users', m, AddCourseOutcome.constructionFailed e)

/-- Models `studentEmail.substr(0, studentEmail.find('@'))`: the prefix before the
first `'@'` (the whole string when there is none). -/
def usernameFromEmail (email : String) : String :=
  String.mk (email.data.takeWhile (fun c => c != '@'))

/-- Outcome of `Admin::enrollStudent`. -/
inductive EnrollOutcome where
  | noCourses : EnrollOutcome
  | duplicateAccount : EnrollOutcome
  | enrolled : EnrollOutcome
  | courseError : LMSError → EnrollOutcome
deriving DecidableEq, Repr

/-- Models `Admin::enrollStudent`. `courseIndex` is the 1-based index the admin
typed (the shell constrains it to `1..courses.size()`); `studentEmail` is
the first email the admin submits that passes `isValidEmail` (the shell
re-prompts on an invalid one). If a user with that email already exists
the operation aborts ("Cannot create a duplicate account"); otherwise a
`Student` record is appended to the user list and the email is enrolled in
the course obtained through `getCourse` (a live registry reference, so the
enrollment is written back into the registry; if `Course::enrollStudent`
throws, the catch block leaves the registry unchanged but the student
record has already been added). -/
def Admin.enrollStudent (users : List UserRec) (m : LMSManager)
    (courseIndex : Int) (studentEmail studentPassword : String) :
    List UserRec × LMSManager × EnrollOutcome :=
  if m.courses.isEmpty then
    (users, m, EnrollOutcome.noCourses)
  else
    match m.getCourse (courseIndex - 1) with
    | Except.error e => (users, m, EnrollOutcome.courseError e)
    | Except.ok course =>
      if users.any (fun u => u.email == studentEmail) then
        (users, m, EnrollOutcome.duplicateAccount)
      else
        let newStudent : UserRec :=
          ⟨usernameFromEmail studentEmail, studentEmail, studentPassword, Role.student⟩
        let users' := users ++ [newStudent]
        match course.enrollStudent studentEmail with
        | (course', none) =>
          (users', ⟨m.courses.set (courseIndex - 1).toNat course'⟩, EnrollOutcome.enrolled)
        | (_, some e) => (users', m, EnrollOutcome.courseError e)

/-- Models `Teacher::addGrade` for the teacher with email `teacherEmail`.
`assignedCourses` is a by-value copy of the registry courses filtered to
this teacher; `courseIndex` is the 1-based choice into that copy (the
shell constrains it to `1..assignedCourses.size()`); `studentEmail` is the
first submitted email passing `isValidEmail`; `grade` is the validated
0..100 input. The enrollment check and `Course::addGrade` run against the
copied element, which is returned alongside the untouched registry (the
copy is destroyed when the C++ function returns). -/
def Teacher.addGradeRun (teacherEmail : String) (m : LMSManager)
    (courseIndex : Int) (studentEmail : String) (grade : Int) :
    LMSManager × Option Course :=
  if m.courses.isEmpty then
    (m, none)
  else
    let assignedCourses := m.courses.filter (fun c => c.teacherEmail == teacherEmail)
    if assignedCourses.isEmpty then
      (m, none)
    else
      match assignedCourses.get? (courseIndex - 1).toNat with
      | none => (m, none)
      | some course =>
        if !course.enrolledStudents.contains studentEmail then
          (m, none)
        else
          (m, some (course.addGrade studentEmail grade).1)

/-- Models `Teacher::addContent` for the teacher with email `teacherEmail`: same
filtered by-value copy as `Teacher.addGradeRun`; `Course::addContent` runs
against the copied element, returned alongside the untouched registry. -/
def Teacher.addContentRun (teacherEmail : String) (m : LMSManager)
    (courseIndex : Int) (content : String) : LMSManager × Option Course :=
  if m.courses.isEmpty then
    (m, none)
  else
    let assignedCourses := m.courses.filter (fun c => c.teacherEmail == teacherEmail)
    if assignedCourses.isEmpty then
      (m, none)
    else
      match assignedCourses.get? (courseIndex - 1).toNat with
      | none => (m, none)
      | some course => (m, some (course.addContent content).1)

/-- The seed user list built at the top of `main`: one admin and two
teachers. -/
def seedUsers : List UserRec :=
  [⟨"admin1", "admin1@example.com", "adminpass", Role.admin⟩,
   ⟨"teacher1", "teacher1@example.com", "teacherpass", Role.teacher⟩,
   ⟨"teacher2", "teacher2@example.com", "teacherpass", Role.teacher⟩]

/-- The course/registry bootstrap at the top of `main`: two courses with
two content items each, added to the manager in order. Any exception
propagates to the top-level catch ("Fatal error"). -/
def bootstrap : Except LMSError LMSManager :=
  match Course.create "Mathematics" "teacher1@example.com" with
  | Except.error e => Except.error e
  | Except.ok c1 =>
    match c1.addContent "Introduction to Algebra" with
    | (_, some e) => Except.error e
    | (c1, none) =>
      match c1.addContent "Advanced Calculus" with
      | (_, some e) => Except.error e
      | (c1, none) =>
        match Course.create "Physics" "teacher2@example.com" with
        | Except.error e => Except.error e
        | Except.ok c2 =>
          match c2.addContent "Newton\x27s Laws" with
          | (_, some e) => Except.error e
          | (c2, none) =>
            match c2.addContent "Thermodynamics" with
            | (_, some e) => Except.error e
            | (c2, none) =>
              Except.ok ((LMSManager.mk []).addCourse c1 |>.addCourse c2)

/-- The registry state after a successful bootstrap. -/
def seedManager : LMSManager :=
  (bootstrap.toOption).getD ⟨[]⟩

/-! ## Supporting lemmas -/

/-- Formalization of the spec sentence behind claim C4: the email contains
an at sign at a position greater than 0, followed later by a dot, with at
least one character after that dot. -/
def specEmailShape (e : String) : Prop :=
  ∃ i j, 0 < i ∧ i < j ∧ e.data.get? i = some '@' ∧ e.data.get? j = some '.' ∧
    j + 1 < e.data.length

/-- Each teacher email is the assigned teacher of at most one course. -/
def teacherAtMostOne (m : LMSManager) : Prop :=
  ∀ t : String, (m.courses.filter (fun c => c.teacherEmail == t)).length ≤ 1

def sampleCourse : Course :=
  ⟨"Algebra", "teacher1@example.com", ["Intro"], [], ["a@b.co"]⟩

def studentOnlyUser : UserRec := ⟨"stud", "stu@mail.com", "pw", Role.student⟩

def mathCourseSeed : Course :=
  ⟨"Mathematics", "teacher1@example.com",
   ["Introduction to Algebra", "Advanced Calculus"], [], []⟩

/-! Supporting lemmas. -/

/-- Models `findCharIdx` returns the first occurrence. -/
theorem findCharIdx_sound (c : Char) (s : List Char) (i : Nat)
    (h : findCharIdx c s = some i) :
    s.get? i = some c ∧ ∀ k, k < i → s.get? k ≠ some c := by
  induction s generalizing i with
  | nil => simp [findCharIdx] at h
  | cons x xs ih =>
    by_cases hx : x == c
    · have hxc : x = c := beq_iff_eq.mp hx
      simp only [findCharIdx, if_pos hx, Option.some_inj] at h
      subst h
      subst hxc
      exact ⟨rfl, fun k hk => absurd hk (Nat.not_lt_zero k)⟩
    · have hxc : x ≠ c := fun hh => hx (by simp [hh])
      simp only [findCharIdx, if_neg hx, Option.map_eq_some'] at h
      obtain ⟨k, hk1, hk2⟩ := h
      subst hk2
      obtain ⟨h1, h2⟩ := ih k hk1
      refine ⟨by simpa using h1, ?_⟩
      intro m hm
      cases m with
      | zero => simpa using hxc
      | succ m' =>
        simp only [List.get?_cons_succ]
        exact h2 m' (by omega)

theorem findCharIdx_none (c : Char) (s : List Char)
    (h : findCharIdx c s = none) : ∀ k, s.get? k ≠ some c := by
  induction s with
  | nil => intro k; simp
  | cons x xs ih =>
    by_cases hx : x == c
    · simp only [findCharIdx, if_pos hx] at h
      exact Option.noConfusion h
    · have hxc : x ≠ c := fun hh => hx (by simp [hh])
      simp only [findCharIdx, if_neg hx, Option.map_eq_none'] at h
      intro k
      cases k with
      | zero => simpa using hxc
      | succ m => simpa using ih h m

theorem rfindCharIdx_none (c : Char) (s : List Char)
    (h : rfindCharIdx c s = none) : ∀ k, s.get? k ≠ some c := by
  induction s with
  | nil => intro k; simp
  | cons x xs ih =>
    simp only [rfindCharIdx] at h
    cases hr : rfindCharIdx c xs with
    | some k => rw [hr] at h; exact absurd h (by simp)
    | none =>
      rw [hr] at h
      by_cases hx : x == c
      · rw [if_pos hx] at h; exact absurd h (by simp)
      · have hxc : x ≠ c := fun hh => hx (by simp [hh])
        intro k
        cases k with
        | zero => simpa using hxc
        | succ m => simpa using ih hr m

theorem rfindCharIdx_sound (c : Char) (s : List Char) (j : Nat)
    (h : rfindCharIdx c s = some j) :
    s.get? j = some c ∧ ∀ k, j < k → s.get? k ≠ some c := by
  induction s generalizing j with
  | nil => simp [rfindCharIdx] at h
  | cons x xs ih =>
    simp only [rfindCharIdx] at h
    cases hr : rfindCharIdx c xs with
    | some k =>
      rw [hr] at h
      simp only [Option.some_inj] at h
      subst h
      obtain ⟨h1, h2⟩ := ih k hr
      refine ⟨by simpa using h1, ?_⟩
      intro m hm
      cases m with
      | zero => omega
      | succ m' =>
        simp only [List.get?_cons_succ]
        exact h2 m' (by omega)
    | none =>
      rw [hr] at h
      by_cases hx : x == c
      · have hxc : x = c := beq_iff_eq.mp hx
        rw [if_pos hx] at h
        simp only [Option.some_inj] at h
        subst h
        subst hxc
        refine ⟨rfl, ?_⟩
        intro m hm
        cases m with
        | zero => omega
        | succ m' => simpa using rfindCharIdx_none x xs hr m'
      · rw [if_neg hx] at h
        exact absurd h (by simp)

theorem findCharIdx_eq_some_iff (c : Char) (s : List Char) (i : Nat) :
    findCharIdx c s = some i ↔
      s.get? i = some c ∧ ∀ k, k < i → s.get? k ≠ some c := by
  constructor
  · exact findCharIdx_sound c s i
  · rintro ⟨h1, h2⟩
    cases hf : findCharIdx c s with
    | none => exact absurd h1 (findCharIdx_none c s hf i)
    | some a =>
      obtain ⟨g1, g2⟩ := findCharIdx_sound c s a hf
      rcases Nat.lt_trichotomy a i with hlt | heq | hgt
      · exact absurd g1 (h2 a hlt)
      · rw [heq]
      · exact absurd h1 (g2 i hgt)

theorem rfindCharIdx_eq_some_iff (c : Char) (s : List Char) (j : Nat) :
    rfindCharIdx c s = some j ↔
      s.get? j = some c ∧ ∀ k, j < k → s.get? k ≠ some c := by
  constructor
  · exact rfindCharIdx_sound c s j
  · rintro ⟨h1, h2⟩
    cases hf : rfindCharIdx c s with
    | none => exact absurd h1 (rfindCharIdx_none c s hf j)
    | some a =>
      obtain ⟨g1, g2⟩ := rfindCharIdx_sound c s a hf
      rcases Nat.lt_trichotomy a j with hlt | heq | hgt
      · exact absurd h1 (g2 j hlt)
      · rw [heq]
      · exact absurd g1 (h2 a hgt)

theorem addGrade_ok_result (c : Course) (e : String) (g : Int)
    (h : (c.addGrade e g).2 = none) :
    c.addGrade e g = ({ c with grades := c.grades ++ [(e, g)] }, none) := by
  unfold Course.addGrade at h ⊢
  cases hv : isValidEmail e with
  | false => rw [hv] at h; simp at h
  | true =>
    rw [hv] at h
    cases hg : isValidGrade g with
    | false => rw [hg] at h; simp at h
    | true => rfl

theorem addGradeRun_registry_frame (te : String) (m : LMSManager) (k : Int)
    (se : String) (g : Int) : (Teacher.addGradeRun te m k se g).1 = m := by
  unfold Teacher.addGradeRun
  dsimp only
  split
  · rfl
  · split
    · rfl
    · split
      · rfl
      · split <;> rfl

theorem addContentRun_registry_frame (te : String) (m : LMSManager) (k : Int)
    (content : String) : (Teacher.addContentRun te m k content).1 = m := by
  unfold Teacher.addContentRun
  dsimp only
  split
  · rfl
  · split
    · rfl
    · split <;> rfl

theorem create_ok_fields (n t : String) (c : Course)
    (h : Course.create n t = Except.ok c) :
    c.teacherEmail = t ∧ c.courseName = n := by
  unfold Course.create at h
  split at h
  · exact absurd h (by simp)
  · split at h
    · exact absurd h (by simp)
    · cases h
      exact ⟨rfl, rfl⟩

theorem teacherAtMostOne_add (m : LMSManager) (c : Course)
    (hinv : teacherAtMostOne m)
    (hn : m.courses.any (fun x => x.teacherEmail == c.teacherEmail) = false) :
    teacherAtMostOne (m.addCourse c) := by
  intro t
  unfold LMSManager.addCourse
  dsimp only
  rw [List.filter_append]
  by_cases ht : c.teacherEmail = t
  · subst ht
    have hnil : m.courses.filter (fun x => x.teacherEmail == c.teacherEmail) = [] := by
      rw [List.filter_eq_nil_iff]
      intro a ha
      rw [List.any_eq_false] at hn
      exact hn a ha
    rw [hnil]
    simp
  · have hone : List.filter (fun x => x.teacherEmail == t) [c] = [] := by
      simp only [List.filter_cons, List.filter_nil]
      rw [if_neg ?_]
      simp only [beq_iff_eq]
      exact ht
    rw [hone]
    simp only [List.append_nil]
    exact hinv t

/-! Claim theorems. -/

/-- Claim C4 counterexample: on the string "a@b.c." the spec-shaped
condition holds (take the at sign at position 1 and the dot at position 3,
which has characters after it), yet `isValidEmail` returns false, because
the source compares against the LAST dot, which here is the final
character. -/
theorem C4_counterexample :
    ¬ (isValidEmail "a@b.c." = true ↔ specEmailShape "a@b.c.") := by
  intro h
  have h2 : specEmailShape "a@b.c." :=
    ⟨1, 3, by decide, by decide, by decide, by decide, by decide⟩
  exact absurd (h.mpr h2) (by decide)

/-- Claim C4 (amended): `isValidEmail e` is true iff the FIRST at sign of
`e` sits at a position greater than 0 and the LAST dot of `e` sits after
that at sign and is not the final character. -/
theorem C4_email_amended (e : String) :
    isValidEmail e = true ↔
      ∃ i j, e.data.get? i = some '@' ∧ (∀ k, k < i → e.data.get? k ≠ some '@') ∧
        e.data.get? j = some '.' ∧ (∀ k, j < k → e.data.get? k ≠ some '.') ∧
        0 < i ∧ i < j ∧ j + 1 < e.data.length := by
  constructor
  · intro h
    unfold isValidEmail isValidEmailCore at h
    cases hf : findCharIdx '@' e.data with
    | none => rw [hf] at h; exact absurd h (by simp)
    | some atPos =>
      cases hr : rfindCharIdx '.' e.data with
      | none => rw [hf, hr] at h; exact absurd h (by simp)
      | some dotPos =>
        rw [hf, hr] at h
        simp only [Bool.and_eq_true, decide_eq_true_eq] at h
        obtain ⟨⟨h1, h2⟩, h3⟩ := h
        obtain ⟨f1, f2⟩ := findCharIdx_sound _ _ _ hf
        obtain ⟨r1, r2⟩ := rfindCharIdx_sound _ _ _ hr
        have hlen : dotPos < e.data.length := by
          by_contra hc
          push_neg at hc
          rw [List.get?_eq_none.mpr hc] at r1
          exact Option.noConfusion r1
        exact ⟨atPos, dotPos, f1, f2, r1, r2, h2, h1, by omega⟩
  · rintro ⟨i, j, h1, h2, h3, h4, h5, h6, h7⟩
    have hf : findCharIdx '@' e.data = some i :=
      (findCharIdx_eq_some_iff _ _ _).mpr ⟨h1, h2⟩
    have hr : rfindCharIdx '.' e.data = some j :=
      (rfindCharIdx_eq_some_iff _ _ _).mpr ⟨h3, h4⟩
    unfold isValidEmail isValidEmailCore
    rw [hf, hr]
    simp only [Bool.and_eq_true, decide_eq_true_eq]
    exact ⟨⟨h6, h5⟩, by omega⟩

/-- Witness for claim C4: the amended characterization applied to the
concrete address "a@b.co". -/
theorem C4_witness : isValidEmail "a@b.co" = true :=
  (C4_email_amended "a@b.co").mpr
    ⟨1, 3, by decide, by decide, by decide,
     (rfindCharIdx_sound '.' ("a@b.co").data 3 (by decide)).2,
     by decide, by decide, by decide⟩

/-- Claim C1 (frame_effect): a successful grade insertion performed through
the live registry handle of `getCourse(i)` changes the registry course
sequence (the course at `i` differs afterwards), whereas the teacher
operations `Teacher::addGrade` and `Teacher::addContent`, which work on a
filtered by-value copy of the assigned courses, leave the registry
unchanged while the mutation lands only in the discarded copy. -/
theorem C1_handle_vs_copy (m : LMSManager) (i : Int) (c : Course)
    (se content te : String) (g k : Int)
    (hvi : isValidIndex i (m.courses.length : Int) = true)
    (hc : m.courses.get? i.toNat = some c)
    (hok : (c.addGrade se g).2 = none) :
    (m.mutateCourse i (fun x => x.addGrade se g)).1 ≠ m ∧
    (m.mutateCourse i (fun x => x.addGrade se g)).1.courses.get? i.toNat =
      some (c.addGrade se g).1 ∧
    (Teacher.addGradeRun te m k se g).1 = m ∧
    (Teacher.addContentRun te m k content).1 = m := by
  have hres := addGrade_ok_result c se g hok
  have h1 : (c.addGrade se g).1 = { c with grades := c.grades ++ [(se, g)] } := by
    rw [hres]
  have hlen : i.toNat < m.courses.length := by
    unfold isValidIndex at hvi
    simp only [Bool.and_eq_true, decide_eq_true_eq] at hvi
    omega
  have hmc : m.mutateCourse i (fun x => x.addGrade se g) =
      (⟨m.courses.set i.toNat ({ c with grades := c.grades ++ [(se, g)] })⟩, none) := by
    unfold LMSManager.mutateCourse
    rw [hvi, hc]
    dsimp only
    rw [hres]
    rfl
  have hget : (m.courses.set i.toNat
      ({ c with grades := c.grades ++ [(se, g)] })).get? i.toNat =
      some ({ c with grades := c.grades ++ [(se, g)] } : Course) := by
    rw [List.get?_eq_getElem?]
    exact List.getElem?_set_eq_of_lt _ hlen
  refine ⟨?_, ?_, addGradeRun_registry_frame te m k se g,
    addContentRun_registry_frame te m k content⟩
  · intro heq
    rw [hmc] at heq
    have hcs := congrArg LMSManager.courses heq
    simp only at hcs
    rw [hcs] at hget
    rw [hc] at hget
    have h4 := congrArg Course.grades (Option.some.inj hget)
    simp only at h4
    simp at h4
  · rw [hmc, h1]
    exact hget

/-- Witness for claim C1 on a one-course registry. -/
theorem C1_witness :
    ((LMSManager.mk [sampleCourse]).mutateCourse 0
        (fun x => x.addGrade "a@b.co" 85)).1 ≠ LMSManager.mk [sampleCourse] ∧
    ((LMSManager.mk [sampleCourse]).mutateCourse 0
        (fun x => x.addGrade "a@b.co" 85)).1.courses.get? (0 : Int).toNat =
      some (sampleCourse.addGrade "a@b.co" 85).1 ∧
    (Teacher.addGradeRun "teacher1@example.com" (LMSManager.mk [sampleCourse]) 1
      "a@b.co" 85).1 = LMSManager.mk [sampleCourse] ∧
    (Teacher.addContentRun "teacher1@example.com" (LMSManager.mk [sampleCourse]) 1
      "Limits").1 = LMSManager.mk [sampleCourse] :=
  C1_handle_vs_copy (LMSManager.mk [sampleCourse]) 0 sampleCourse "a@b.co" "Limits"
    "teacher1@example.com" 85 1 (by decide) (by rfl) (by decide)

/-- Claim C2 counterexample: with a single registered Student carrying
"stu@mail.com" and an empty registry, `Admin::addCourse` reports `added`,
although no registered user with role Teacher carries that email — the
source only checks that SOME user has the email, never the role. -/
theorem C2_counterexample :
    (Admin.addCourse [studentOnlyUser] ⟨[]⟩ "Algebra" "stu@mail.com" false "" "").2.2 =
      AddCourseOutcome.added ∧
    ¬ ∃ u ∈ (Admin.addCourse [studentOnlyUser] ⟨[]⟩ "Algebra" "stu@mail.com"
        false "" "").1, u.email = "stu@mail.com" ∧ u.role = Role.teacher := by
  refine ⟨rfl, ?_⟩
  rintro ⟨u, hu, _, hr⟩
  have : u = studentOnlyUser := by
    have h2 : (Admin.addCourse [studentOnlyUser] ⟨[]⟩ "Algebra" "stu@mail.com"
        false "" "").1 = [studentOnlyUser] := rfl
    rw [h2] at hu
    exact List.mem_singleton.mp hu
  rw [this] at hr
  exact Role.noConfusion hr

/-- Claim C2 (amended): the admin add-course operation adds a course only
when the supplied teacher email belongs to a registered user of any role
(the role is never inspected), offering to register a Teacher when the
email is unknown; it refuses when the email is already assigned to an
existing course; and it preserves the at-most-one-course-per-teacher-email
invariant. -/
theorem C2_addCourse_amended (users : List UserRec) (m : LMSManager)
    (cn te nn np : String) (reg : Bool) :
    ((Admin.addCourse users m cn te reg nn np).2.2 = AddCourseOutcome.added →
      ∃ u ∈ (Admin.addCourse users m cn te reg nn np).1, u.email = te) ∧
    (users.any (fun u => u.email == te) = false → reg = false →
      Admin.addCourse users m cn te reg nn np =
        (users, m, AddCourseOutcome.canceled)) ∧
    (users.any (fun u => u.email == te) = false → reg = true →
      (Admin.addCourse users m cn te reg nn np).1 =
        users ++ [⟨nn, te, np, Role.teacher⟩]) ∧
    (m.courses.any (fun c => c.teacherEmail == te) = true →
      (Admin.addCourse users m cn te reg nn np).2.1 = m ∧
      (Admin.addCourse users m cn te reg nn np).2.2 ≠ AddCourseOutcome.added) ∧
    (teacherAtMostOne m →
      teacherAtMostOne (Admin.addCourse users m cn te reg nn np).2.1) := by
  cases hex : users.any (fun u => u.email == te) with
  | false =>
    cases reg with
    | false =>
      have hR : Admin.addCourse users m cn te false nn np =
          (users, m, AddCourseOutcome.canceled) := by
        unfold Admin.addCourse
        rw [hex]
        rfl
      rw [hR]
      refine ⟨?_, ?_, ?_, ?_, ?_⟩
      · intro h; exact absurd h (by simp)
      · intro _ _; rfl
      · intro _ h; exact Bool.noConfusion h
      · intro _; exact ⟨rfl, by simp⟩
      · intro h; exact h
    | true =>
      cases hasg : m.courses.any (fun c => c.teacherEmail == te) with
      | true =>
        have hR : Admin.addCourse users m cn te true nn np =
            (users ++ [⟨nn, te, np, Role.teacher⟩], m,
              AddCourseOutcome.alreadyAssigned) := by
          unfold Admin.addCourse
          rw [hex, hasg]
          rfl
        rw [hR]
        refine ⟨?_, ?_, ?_, ?_, ?_⟩
        · intro h; exact absurd h (by simp)
        · intro _ h; exact Bool.noConfusion h
        · intro _ _; rfl
        · intro _; exact ⟨rfl, by simp⟩
        · intro h; exact h
      | false =>
        cases hcr : Course.create cn te with
        | error e =>
          have hR : Admin.addCourse users m cn te true nn np =
              (users ++ [⟨nn, te, np, Role.teacher⟩], m,
                AddCourseOutcome.constructionFailed e) := by
            unfold Admin.addCourse
            rw [hex, hasg, hcr]
            rfl
          rw [hR]
          refine ⟨?_, ?_, ?_, ?_, ?_⟩
          · intro h; exact absurd h (by simp)
          · intro _ h; exact Bool.noConfusion h
          · intro _ _; rfl
          · intro h; exact absurd h (by simp)
          · intro h; exact h
        | ok c =>
          have hR : Admin.addCourse users m cn te true nn np =
              (users ++ [⟨nn, te, np, Role.teacher⟩], m.addCourse c,
                AddCourseOutcome.added) := by
            unfold Admin.addCourse
            rw [hex, hasg, hcr]
            rfl
          rw [hR]
          refine ⟨?_, ?_, ?_, ?_, ?_⟩
          · intro _
            exact ⟨⟨nn, te, np, Role.teacher⟩, by simp, rfl⟩
          · intro _ h; exact Bool.noConfusion h
          · intro _ _; rfl
          · intro h; exact absurd h (by simp)
          · intro hinv
            have hte := (create_ok_fields cn te c hcr).1
            exact teacherAtMostOne_add m c hinv (by rw [hte]; exact hasg)
  | true =>
    cases hasg : m.courses.any (fun c => c.teacherEmail == te) with
    | true =>
      have hR : Admin.addCourse users m cn te reg nn np =
          (users, m, AddCourseOutcome.alreadyAssigned) := by
        unfold Admin.addCourse
        rw [hex, hasg]
        cases reg <;> rfl
      rw [hR]
      refine ⟨?_, ?_, ?_, ?_, ?_⟩
      · intro h; exact absurd h (by simp)
      · intro h _; exact absurd h (by simp)
      · intro h _; exact absurd h (by simp)
      · intro _; exact ⟨rfl, by simp⟩
      · intro h; exact h
    | false =>
      cases hcr : Course.create cn te with
      | error e =>
        have hR : Admin.addCourse users m cn te reg nn np =
            (users, m, AddCourseOutcome.constructionFailed e) := by
          unfold Admin.addCourse
          rw [hex, hasg, hcr]
          cases reg <;> rfl
        rw [hR]
        refine ⟨?_, ?_, ?_, ?_, ?_⟩
        · intro h; exact absurd h (by simp)
        · intro h _; exact absurd h (by simp)
        · intro h _; exact absurd h (by simp)
        · intro h; exact absurd h (by simp)
        · intro h; exact h
      | ok c =>
        have hR : Admin.addCourse users m cn te reg nn np =
            (users, m.addCourse c, AddCourseOutcome.added) := by
          unfold Admin.addCourse
          rw [hex, hasg, hcr]
          cases reg <;> rfl
        rw [hR]
        refine ⟨?_, ?_, ?_, ?_, ?_⟩
        · intro _
          obtain ⟨u, hu, hbe⟩ := List.any_eq_true.mp hex
          exact ⟨u, hu, by simpa using hbe⟩
        · intro h _; exact absurd h (by simp)
        · intro h _; exact absurd h (by simp)
        · intro h; exact absurd h (by simp)
        · intro hinv
          have hte := (create_ok_fields cn te c hcr).1
          exact teacherAtMostOne_add m c hinv (by rw [hte]; exact hasg)

/-- Witness for claim C2: adding "Chemistry" with a fresh teacher email to
the seed registry while agreeing to register the teacher. -/
theorem C2_witness :
    ∃ u ∈ (Admin.addCourse seedUsers seedManager "Chemistry"
        "teacher9@example.com" true "teacher9" "pw").1,
      u.email = "teacher9@example.com" :=
  (C2_addCourse_amended seedUsers seedManager "Chemistry" "teacher9@example.com"
    "teacher9" "pw" true).1 (by rfl)

/-- Claim C3 counterexample: enrolling the already-registered (valid)
email "stu@mail.com" does not enroll: the operation aborts with
`duplicateAccount` and both the user list and the registry are unchanged,
contradicting "in both cases appends the email to the enrollment set". -/
theorem C3_counterexample :
    isValidEmail "stu@mail.com" = true ∧
    (Admin.enrollStudent [studentOnlyUser] ⟨[sampleCourse]⟩ 1 "stu@mail.com"
        "pw").2.2 = EnrollOutcome.duplicateAccount ∧
    (Admin.enrollStudent [studentOnlyUser] ⟨[sampleCourse]⟩ 1 "stu@mail.com"
        "pw").2.1 = ⟨[sampleCourse]⟩ ∧
    (Admin.enrollStudent [studentOnlyUser] ⟨[sampleCourse]⟩ 1 "stu@mail.com"
        "pw").1 = [studentOnlyUser] := by
  refine ⟨by decide, rfl, rfl, rfl⟩

/-- Claim C3 (amended): given a valid course index and a valid student
email, `Admin::enrollStudent` aborts with `duplicateAccount` (users and
registry untouched) when the email is already registered; only when the
email is unseen does it append a Student record to the user list and the
email to the chosen course's enrollment set. -/
theorem C3_enroll_amended (users : List UserRec) (m : LMSManager) (idx : Int)
    (e pw : String) (c : Course)
    (h1 : 1 ≤ idx) (h2 : idx ≤ (m.courses.length : Int))
    (hc : m.courses.get? (idx - 1).toNat = some c)
    (hv : isValidEmail e = true) :
    (users.any (fun u => u.email == e) = true →
      Admin.enrollStudent users m idx e pw =
        (users, m, EnrollOutcome.duplicateAccount)) ∧
    (users.any (fun u => u.email == e) = false →
      c.enrolledStudents.contains e = false →
      Admin.enrollStudent users m idx e pw =
        (users ++ [⟨usernameFromEmail e, e, pw, Role.student⟩],
         ⟨m.courses.set (idx - 1).toNat
            { c with enrolledStudents := c.enrolledStudents ++ [e] }⟩,
         EnrollOutcome.enrolled)) := by
  have hlen : m.courses.length ≠ 0 := by
    intro h0
    rw [h0] at h2
    omega
  have hne : m.courses.isEmpty = false := by
    cases hM : m.courses with
    | nil => rw [hM] at hlen; simp at hlen
    | cons a as => rfl
  have hvidx : isValidIndex (idx - 1) (m.courses.length : Int) = true := by
    unfold isValidIndex
    simp only [Bool.and_eq_true, decide_eq_true_eq]
    omega
  have hgc : m.getCourse (idx - 1) = Except.ok c := by
    unfold LMSManager.getCourse
    rw [hvidx, hc]
    rfl
  constructor
  · intro hx
    unfold Admin.enrollStudent
    rw [hne, hgc]
    dsimp only
    rw [hx]
    rfl
  · intro hx hcont
    have henr : c.enrollStudent e =
        ({ c with enrolledStudents := c.enrolledStudents ++ [e] }, none) := by
      unfold Course.enrollStudent
      rw [hv, hcont]
      rfl
    unfold Admin.enrollStudent
    rw [hne, hgc]
    dsimp only
    rw [hx, henr]
    rfl

/-- Witness for claim C3: enrolling a fresh student email into the seed
registry's first course. -/
theorem C3_witness :
    Admin.enrollStudent seedUsers seedManager 1 "new@stud.co" "pw" =
      (seedUsers ++ [⟨"new", "new@stud.co", "pw", Role.student⟩],
       ⟨seedManager.courses.set ((1 : Int) - 1).toNat
          { mathCourseSeed with
              enrolledStudents := mathCourseSeed.enrolledStudents ++ ["new@stud.co"] }⟩,
       EnrollOutcome.enrolled) :=
  (C3_enroll_amended seedUsers seedManager 1 "new@stud.co" "pw" mathCourseSeed
    (by decide) (by decide) (by rfl) (by decide)).2 (by rfl) (by decide)

/-- Claim C5 (invariants): `Course::enrollStudent` fails with a
ValidationError exactly when the email is invalid or already present, and
appends it otherwise; a second enrollment of the same pair fails leaving
the state unchanged; and the no-duplicate invariant on `enrolledStudents`
is preserved by every course operation. -/
theorem C5_enrollStudent_spec (c : Course) (e : String) :
    ((c.enrollStudent e).2.isSome ↔
      (isValidEmail e = false ∨ c.enrolledStudents.contains e = true)) ∧
    ((c.enrollStudent e).2.isSome →
      (c.enrollStudent e).1 = c ∧
      ∃ msg, (c.enrollStudent e).2 = some (LMSError.validation msg)) ∧
    ((c.enrollStudent e).2 = none →
      (c.enrollStudent e).1.enrolledStudents = c.enrolledStudents ++ [e]) ∧
    ((c.enrollStudent e).2 = none →
      ((c.enrollStudent e).1.enrollStudent e).2 =
        some (LMSError.validation "Student already enrolled") ∧
      ((c.enrollStudent e).1.enrollStudent e).1 = (c.enrollStudent e).1) ∧
    (c.enrolledStudents.Nodup →
      (c.enrollStudent e).1.enrolledStudents.Nodup ∧
      (c.removeStudent e).1.enrolledStudents.Nodup) ∧
    (∀ (s e2 : String) (g i : Int),
      (c.addContent s).1.enrolledStudents = c.enrolledStudents ∧
      (c.addGrade e2 g).1.enrolledStudents = c.enrolledStudents ∧
      (c.removeContent i).1.enrolledStudents = c.enrolledStudents) := by
  have hframe : ∀ (s e2 : String) (g i : Int),
      (c.addContent s).1.enrolledStudents = c.enrolledStudents ∧
      (c.addGrade e2 g).1.enrolledStudents = c.enrolledStudents ∧
      (c.removeContent i).1.enrolledStudents = c.enrolledStudents := by
    intro s e2 g i
    refine ⟨?_, ?_, ?_⟩
    · unfold Course.addContent; split <;> rfl
    · unfold Course.addGrade; split
      · rfl
      · split <;> rfl
    · unfold Course.removeContent; split <;> rfl
  have hremove : c.enrolledStudents.Nodup →
      (c.removeStudent e).1.enrolledStudents.Nodup := by
    intro hn
    unfold Course.removeStudent
    split
    · exact List.Nodup.erase e hn
    · exact hn
  cases hv : isValidEmail e with
  | false =>
    have he : c.enrollStudent e =
        (c, some (LMSError.validation "Invalid student email")) := by
      unfold Course.enrollStudent
      rw [hv]
      rfl
    rw [he]
    refine ⟨by simp [hv], ?_, ?_, ?_, ?_, hframe⟩
    · intro _
      exact ⟨rfl, "Invalid student email", rfl⟩
    · intro h; exact absurd h (by simp)
    · intro h; exact absurd h (by simp)
    · intro hn; exact ⟨hn, hremove hn⟩
  | true =>
    cases hc : c.enrolledStudents.contains e with
    | true =>
      have he : c.enrollStudent e =
          (c, some (LMSError.validation "Student already enrolled")) := by
        unfold Course.enrollStudent
        rw [hv, hc]
        rfl
      rw [he]
      refine ⟨by simp [hc], ?_, ?_, ?_, ?_, hframe⟩
      · intro _
        exact ⟨rfl, "Student already enrolled", rfl⟩
      · intro h; exact absurd h (by simp)
      · intro h; exact absurd h (by simp)
      · intro hn; exact ⟨hn, hremove hn⟩
    | false =>
      have hmem : e ∉ c.enrolledStudents := by
        intro hm
        have h2 : c.enrolledStudents.contains e = true := List.elem_iff.mpr hm
        rw [h2] at hc
        exact Bool.noConfusion hc
      have he : c.enrollStudent e =
          ({ c with enrolledStudents := c.enrolledStudents ++ [e] }, none) := by
        unfold Course.enrollStudent
        rw [hv, hc]
        rfl
      have hc2 : (c.enrolledStudents ++ [e]).contains e = true :=
        List.elem_iff.mpr (by simp)
      have he2 : ({ c with enrolledStudents := c.enrolledStudents ++ [e] } :
          Course).enrollStudent e =
          ({ c with enrolledStudents := c.enrolledStudents ++ [e] },
            some (LMSError.validation "Student already enrolled")) := by
        unfold Course.enrollStudent
        rw [hv]
        simp only
        rw [hc2]
        rfl
      rw [he]
      refine ⟨by simp [hv, hc], ?_, ?_, ?_, ?_, hframe⟩
      · intro h; exact absurd h (by simp)
      · intro _; rfl
      · intro _
        simp only
        rw [he2]
        exact ⟨rfl, rfl⟩
      · intro hn
        refine ⟨by simp [List.nodup_append, hn, hmem], hremove hn⟩

/-- Witness for claim C5: a successful enrollment on a sample course. -/
theorem C5_witness :
    (sampleCourse.enrollStudent "c@d.co").1.enrolledStudents =
      sampleCourse.enrolledStudents ++ ["c@d.co"] :=
  (C5_enrollStudent_spec sampleCourse "c@d.co").2.2.1 (by decide)

/-- Claim C6 (functional_correctness): `Course::addGrade` fails with a
ValidationError exactly when the email is invalid or the grade lies
outside 0..100, performs no enrollment check, and on success appends the
new pair without deduplicating; grade 150 always fails. -/
theorem C6_addGrade_spec (c : Course) (e : String) (g : Int) :
    ((c.addGrade e g).2.isSome ↔
      (isValidEmail e = false ∨ g < 0 ∨ 100 < g)) ∧
    ((c.addGrade e g).2.isSome →
      (c.addGrade e g).1 = c ∧
      ∃ msg, (c.addGrade e g).2 = some (LMSError.validation msg)) ∧
    (isValidEmail e = true → 0 ≤ g → g ≤ 100 → (c.addGrade e g).2 = none) ∧
    ((c.addGrade e g).2 = none →
      (c.addGrade e g).1.grades = c.grades ++ [(e, g)] ∧
      (c.addGrade e g).1.grades.length = c.grades.length + 1) ∧
    (c.addGrade e 150).2.isSome = true := by
  have h150 : (c.addGrade e 150).2.isSome = true := by
    unfold Course.addGrade
    cases hv : isValidEmail e with
    | false => rfl
    | true => rfl
  cases hv : isValidEmail e with
  | false =>
    have he : c.addGrade e g =
        (c, some (LMSError.validation "Invalid student email")) := by
      unfold Course.addGrade
      rw [hv]
      rfl
    rw [he]
    refine ⟨by simp [hv], ?_, ?_, ?_, h150⟩
    · intro _
      exact ⟨rfl, "Invalid student email", rfl⟩
    · intro h; exact absurd h (by simp)
    · intro h; exact absurd h (by simp)
  | true =>
    cases hg : isValidGrade g with
    | false =>
      have hgr : g < 0 ∨ 100 < g := by
        unfold isValidGrade at hg
        simp only [Bool.and_eq_false_iff, decide_eq_false_iff_not, not_le] at hg
        omega
      have he : c.addGrade e g =
          (c, some (LMSError.validation "Invalid grade")) := by
        unfold Course.addGrade
        rw [hv, hg]
        rfl
      rw [he]
      refine ⟨by simp [hgr], ?_, ?_, ?_, h150⟩
      · intro _
        exact ⟨rfl, "Invalid grade", rfl⟩
      · intro _ h0 h1
        rcases hgr with h | h <;> omega
      · intro h; exact absurd h (by simp)
    | true =>
      have hgr : 0 ≤ g ∧ g ≤ 100 := by
        unfold isValidGrade at hg
        simp only [Bool.and_eq_true, decide_eq_true_eq] at hg
        exact hg
      have he : c.addGrade e g =
          ({ c with grades := c.grades ++ [(e, g)] }, none) := by
        unfold Course.addGrade
        rw [hv, hg]
        rfl
      rw [he]
      refine ⟨by simp; omega, ?_, ?_, ?_, h150⟩
      · intro h; exact absurd h (by simp)
      · intro _ _ _; rfl
      · intro _; exact ⟨rfl, by simp⟩

/-- Witness for claim C6: grade 85 appends, grade 150 fails. -/
theorem C6_witness :
    (sampleCourse.addGrade "a@b.co" 85).1.grades =
      sampleCourse.grades ++ [("a@b.co", 85)] ∧
    (sampleCourse.addGrade "a@b.co" 150).2.isSome = true :=
  ⟨((C6_addGrade_spec sampleCourse "a@b.co" 85).2.2.2.1 (by decide)).1,
   (C6_addGrade_spec sampleCourse "a@b.co" 85).2.2.2.2⟩

/-- Claim C7 (error_handling): `Course::removeContent`,
`LMSManager::removeCourse` and `LMSManager::getCourse` fail with an
IndexError on every out-of-range index and leave the state untouched. -/
theorem C7_index_error_spec (c : Course) (m : LMSManager) (i j k : Int) :
    (isValidIndex i (c.contents.length : Int) = false →
      c.removeContent i = (c, some LMSError.invalidCourseIndex)) ∧
    (isValidIndex j (m.courses.length : Int) = false →
      m.removeCourse j = (m, some LMSError.invalidCourseIndex)) ∧
    (isValidIndex k (m.courses.length : Int) = false →
      m.getCourse k = Except.error LMSError.invalidCourseIndex) := by
  refine ⟨?_, ?_, ?_⟩
  · intro h
    unfold Course.removeContent
    rw [h]
    rfl
  · intro h
    unfold LMSManager.removeCourse
    rw [h]
    rfl
  · intro h
    unfold LMSManager.getCourse
    rw [h]
    rfl

/-- Witness for claim C7 at out-of-range indices 5, 0 and -1. -/
theorem C7_witness :
    sampleCourse.removeContent 5 = (sampleCourse, some LMSError.invalidCourseIndex) ∧
    (LMSManager.mk []).removeCourse 0 = (⟨[]⟩, some LMSError.invalidCourseIndex) ∧
    (LMSManager.mk []).getCourse (-1) = Except.error LMSError.invalidCourseIndex := by
  have h := C7_index_error_spec sampleCourse ⟨[]⟩ 5 0 (-1)
  exact ⟨h.1 (by decide), h.2.1 (by decide), h.2.2 (by decide)⟩

/-- Claim C8 (error_handling): `Course::removeStudent` fails with
ValidationError "Student not found" exactly when the email is absent,
leaving the set unchanged; otherwise it removes that email (under the
no-duplicate invariant the email is gone and all others survive). -/
theorem C8_removeStudent_spec (c : Course) (e : String) :
    ((c.removeStudent e).2.isSome ↔ c.enrolledStudents.contains e = false) ∧
    ((c.removeStudent e).2.isSome →
      (c.removeStudent e).2 = some (LMSError.validation "Student not found") ∧
      (c.removeStudent e).1 = c) ∧
    ((c.removeStudent e).2 = none →
      (c.removeStudent e).1.enrolledStudents = c.enrolledStudents.erase e) ∧
    (c.enrolledStudents.Nodup → (c.removeStudent e).2 = none →
      e ∉ (c.removeStudent e).1.enrolledStudents ∧
      ∀ x, x ≠ e →
        (x ∈ (c.removeStudent e).1.enrolledStudents ↔ x ∈ c.enrolledStudents)) := by
  cases hc : c.enrolledStudents.contains e with
  | true =>
    have he : c.removeStudent e =
        ({ c with enrolledStudents := c.enrolledStudents.erase e }, none) := by
      unfold Course.removeStudent
      rw [hc]
      rfl
    rw [he]
    refine ⟨by simp [hc], ?_, ?_, ?_⟩
    · intro h; exact absurd h (by simp)
    · intro _; rfl
    · intro hn _
      refine ⟨List.Nodup.not_mem_erase hn, ?_⟩
      intro x hx
      exact List.mem_erase_of_ne hx
  | false =>
    have he : c.removeStudent e =
        (c, some (LMSError.validation "Student not found")) := by
      unfold Course.removeStudent
      rw [hc]
      rfl
    rw [he]
    refine ⟨by simp [hc], ?_, ?_, ?_⟩
    · intro _; exact ⟨rfl, rfl⟩
    · intro h; exact absurd h (by simp)
    · intro _ h; exact absurd h (by simp)

/-- Witness for claim C8: removing an absent email fails and leaves the
sample course unchanged. -/
theorem C8_witness :
    (sampleCourse.removeStudent "zz@z.co").2 =
      some (LMSError.validation "Student not found") ∧
    (sampleCourse.removeStudent "zz@z.co").1 = sampleCourse :=
  (C8_removeStudent_spec sampleCourse "zz@z.co").2.1 (by decide)

/-- Claim C9 (functional_correctness): the bootstrapped registry holds
exactly the courses "Mathematics" then "Physics" and the seed users are
one admin and two teachers; deleting index 0 leaves "Physics", deleting
index 0 again empties the registry, and a further delete at index 0 fails
with an IndexError leaving the registry empty. -/
theorem C9_seed_lifecycle :
    bootstrap = Except.ok seedManager ∧
    seedManager.courses.map Course.courseName = ["Mathematics", "Physics"] ∧
    seedUsers.map UserRec.role = [Role.admin, Role.teacher, Role.teacher] ∧
    (seedManager.removeCourse 0).2 = none ∧
    (seedManager.removeCourse 0).1.courses.map Course.courseName = ["Physics"] ∧
    ((seedManager.removeCourse 0).1.removeCourse 0).2 = none ∧
    ((seedManager.removeCourse 0).1.removeCourse 0).1.courses = [] ∧
    (((seedManager.removeCourse 0).1.removeCourse 0).1.removeCourse 0) =
      (((seedManager.removeCourse 0).1.removeCourse 0).1,
        some LMSError.invalidCourseIndex) := by
  exact ⟨rfl, rfl, rfl, rfl, rfl, rfl, rfl, rfl⟩

/-- Claim C10 (frame_effect): the course name and teacher email are fixed
by the constructor and no course operation, successful or failing, ever
changes them. -/
theorem C10_name_teacher_immutable (c : Course) (n t s e x : String) (g i : Int) :
    (∀ c0, Course.create n t = Except.ok c0 →
      c0.courseName = n ∧ c0.teacherEmail = t) ∧
    ((c.addContent s).1.courseName = c.courseName ∧
     (c.addContent s).1.teacherEmail = c.teacherEmail) ∧
    ((c.removeContent i).1.courseName = c.courseName ∧
     (c.removeContent i).1.teacherEmail = c.teacherEmail) ∧
    ((c.addGrade e g).1.courseName = c.courseName ∧
     (c.addGrade e g).1.teacherEmail = c.teacherEmail) ∧
    ((c.enrollStudent x).1.courseName = c.courseName ∧
     (c.enrollStudent x).1.teacherEmail = c.teacherEmail) ∧
    ((c.removeStudent x).1.courseName = c.courseName ∧
     (c.removeStudent x).1.teacherEmail = c.teacherEmail) := by
  refine ⟨?_, ?_, ?_, ?_, ?_, ?_⟩
  · intro c0 h
    unfold Course.create at h
    split at h
    · exact absurd h (by simp)
    · split at h
      · exact absurd h (by simp)
      · cases h
        exact ⟨rfl, rfl⟩
  · unfold Course.addContent; split <;> exact ⟨rfl, rfl⟩
  · unfold Course.removeContent; split <;> exact ⟨rfl, rfl⟩
  · unfold Course.addGrade
    split
    · exact ⟨rfl, rfl⟩
    · split <;> exact ⟨rfl, rfl⟩
  · unfold Course.enrollStudent
    split
    · exact ⟨rfl, rfl⟩
    · split <;> exact ⟨rfl, rfl⟩
  · unfold Course.removeStudent; split <;> exact ⟨rfl, rfl⟩

/-- Witness for claim C10 on a freshly constructed course and a sample
content addition. -/
theorem C10_witness :
    (⟨"Math", "t@e.co", [], [], []⟩ : Course).courseName = "Math" ∧
    (sampleCourse.addContent "New").1.teacherEmail = sampleCourse.teacherEmail := by
  have h := C10_name_teacher_immutable sampleCourse "Math" "t@e.co" "New"
    "a@b.co" "a@b.co" 85 0
  exact ⟨(h.1 ⟨"Math", "t@e.co", [], [], []⟩ (by rfl)).1, h.2.1.2⟩
